import Mathlib

/-!
Shallow embedding of the gmmk-pro-brightness-knob repository
(src/main.rs, src/keyboard_knob.rs, src/monitor.rs) and proofs about it.

The program turns knob gestures (dedicated keys or mouse-wheel emulation)
into eased, interruptible brightness transitions against a DDC monitor.
Pure structure is embedded directly; OS effects (message pump, channel,
monitor writes) are abstracted as explicit inputs and recorded outputs.
-/

/-- KnobAdjustmentEvent from src/keyboard_knob.rs: the two-valued knob event. -/
inductive KnobAdjustmentEvent
  | Increment
  | Decrement
deriving DecidableEq

/-- Discriminant values of the repr(u32) enum: Increment = 0x0500, Decrement = 0x0502. -/
def KnobAdjustmentEvent.code : KnobAdjustmentEvent → ℕ
  | .Increment => 0x0500
  | .Decrement => 0x0502

/-- MIN_BRIGHTNESS constant from src/main.rs. -/
def MIN_BRIGHTNESS : ℤ := 0

/-- MAX_BRIGHTNESS constant from src/main.rs. -/
def MAX_BRIGHTNESS : ℤ := 100

/-- EaseInOutCubic easing curve from the keyframe crate used by src/main.rs:
4t^3 below one half, 1 - (2-2t)^3/2 above; the crate computes in f64,
embedded here over exact rationals. -/
def easeInOutCubic (t : ℚ) : ℚ :=
  if t < 1/2 then 4 * t^3 else 1 - (2 - 2*t)^3 / 2

/-- The keyframe crate's ease function as called in src/main.rs line 85:
clamps the time parameter to [0,1], then linearly interpolates the curve value. -/
def ease (from_brightness to_brightness t : ℚ) : ℚ :=
  from_brightness + (to_brightness - from_brightness) *
    (if t < 0 then 0 else if t > 1 then 1 else easeInOutCubic t)

/-- Number of frames of a transition, src/main.rs line 77:
max(ceil(duration_ms * refresh_rate / 1000), 1). -/
def n_frames (transition_duration_ms refresh_rate_hz : ℕ) : ℕ :=
  max (⌈((transition_duration_ms * refresh_rate_hz : ℕ) : ℚ) / 1000⌉.toNat) 1

/-- Rounded brightness applied at a given frame, src/main.rs lines 84-86:
t = frame/n, ease toward the target, then ceiling when increasing and floor
when decreasing. -/
def frame_value (prev_value target_value : ℤ) (frame n : ℕ) : ℤ :=
  let t : ℚ := (frame : ℚ) / (n : ℚ)
  let next_brightness := ease (prev_value : ℚ) (target_value : ℚ) t
  if (prev_value : ℚ) < (target_value : ℚ) then ⌈next_brightness⌉ else ⌊next_brightness⌋

/-- Observable outcome of one adjust_brightness call: the Result value returned
(the Rust function returns Result<i32, _>) and the sequence of
monitor.set_brightness calls it performed. -/
structure AdjustRun where
  result : Except Unit ℤ
  writes : List ℤ

/-- Frame loop of adjust_brightness, src/main.rs lines 82-105, by recursion on the
number of remaining frames. Each frame computes the rounded value, applies it when
it differs from the previous frame's value, then busy-waits; `pending frame` is
whether a new event is observed on the receiver during that frame's busy-wait
(events_rx.is_empty() turning false), in which case the function returns
Ok(prev_value) immediately. -/
def adjustGo (prev_value target_value : ℤ) (n : ℕ) (pending : ℕ → Bool) :
    ℕ → ℤ → ℕ → AdjustRun
  | _, _, 0 => { result := .ok target_value, writes := [] }
  | frame, prev_brightness, fuel + 1 =>
    let next_brightness := frame_value prev_value target_value frame n
    let w : List ℤ := if next_brightness ≠ prev_brightness then [next_brightness] else []
    if pending frame then
      { result := .ok prev_value, writes := w }
    else
      let rest := adjustGo prev_value target_value n pending (frame + 1) next_brightness fuel
      { result := rest.result, writes := w ++ rest.writes }

/-- adjust_brightness from src/main.rs lines 71-108: frames 1..=n with
prev_brightness initialised to -1. -/
def adjust_brightness (refresh_rate_hz : ℕ) (pending : ℕ → Bool)
    (prev_value target_value : ℤ) (transition_duration_ms : ℕ) : AdjustRun :=
  let n := n_frames transition_duration_ms refresh_rate_hz
  adjustGo prev_value target_value n pending 1 (-1) n

/-- State of the engine loop in main (src/main.rs lines 45-62), with the
monitor writes and the started transitions (from, to) recorded. -/
structure EngineState where
  curr_brightness : ℤ
  next_brightness : ℤ
  writes : List ℤ
  transitions : List (ℤ × ℤ)

/-- Engine startup, src/main.rs lines 46-47: both curr and next brightness are
seeded from primary_monitor.get_brightness(). -/
def engineInit (b : ℤ) : EngineState :=
  { curr_brightness := b, next_brightness := b, writes := [], transitions := [] }

/-- Tentative target computed from a received event, src/main.rs lines 50-53:
increment clamped by MAX_BRIGHTNESS, decrement clamped by MIN_BRIGHTNESS. -/
def next_target (received : KnobAdjustmentEvent) (next_brightness : ℤ) : ℤ :=
  match received with
  | .Increment => min (next_brightness + 1) MAX_BRIGHTNESS
  | .Decrement => max (next_brightness - 1) MIN_BRIGHTNESS

/-- One iteration of the engine loop, src/main.rs lines 49-62: clamp the tentative
target, skip when it equals the applied value, otherwise run adjust_brightness and
take its Ok value as the new applied baseline (Err keeps it unchanged). -/
def engineStep (refresh_rate_hz transition_duration_ms : ℕ) (pending : ℕ → Bool)
    (s : EngineState) (received : KnobAdjustmentEvent) : EngineState :=
  let nb := next_target received s.next_brightness
  if nb ≠ s.curr_brightness then
    let run := adjust_brightness refresh_rate_hz pending s.curr_brightness nb
      transition_duration_ms
    { curr_brightness :=
        match run.result with
        | .error _ => s.curr_brightness
        | .ok value => value,
      next_brightness := nb,
      writes := s.writes ++ run.writes,
      transitions := s.transitions ++ [(s.curr_brightness, nb)] }
  else
    { s with next_brightness := nb }

/-- The engine loop folded over a finite prefix of the event stream; each event
carries the pending-observation function in effect during its transition. -/
def engineRun (refresh_rate_hz transition_duration_ms : ℕ) (b : ℤ)
    (evs : List (KnobAdjustmentEvent × (ℕ → Bool))) : EngineState :=
  evs.foldl (fun s pr => engineStep refresh_rate_hz transition_duration_ms pr.2 s pr.1)
    (engineInit b)

/-- HC_ACTION constant from src/keyboard_knob.rs. -/
def HC_ACTION : ℤ := 0

/-- WM_KEYUP Windows message id. -/
def WM_KEYUP : ℕ := 0x0101

/-- WM_SYSKEYUP Windows message id. -/
def WM_SYSKEYUP : ℕ := 0x0105

/-- WM_MOUSEWHEEL constant from src/keyboard_knob.rs (522). -/
def WM_MOUSEWHEEL : ℕ := 522

/-- Virtual-key code of F19. -/
def VK_F19 : ℕ := 0x82

/-- Virtual-key code of F20. -/
def VK_F20 : ℕ := 0x83

/-- keyboard_hook from src/keyboard_knob.rs lines 76-101, as the event it posts:
none when it only calls CallNextHookEx. vkCode is the u32 field of
KBDLLHOOKSTRUCT, truncated to u16 by the source before comparison. -/
def keyboard_hook (code : ℤ) (w_param : ℕ) (vkCode : ℕ) : Option KnobAdjustmentEvent :=
  if code ≠ HC_ACTION then none
  else
    let key_state := w_param
    let is_key_up := key_state = WM_KEYUP ∨ key_state = WM_SYSKEYUP
    if ¬ is_key_up then none
    else if vkCode % 2^16 = VK_F19 then some .Decrement
    else if vkCode % 2^16 = VK_F20 then some .Increment
    else none

/-- Reinterpretation of a u16 bit pattern as a signed i16 (the `as u16 as i16`
cast chain of src/keyboard_knob.rs line 119). -/
def toI16 (x : ℕ) : ℤ :=
  if x % 2^16 < 2^15 then (x % 2^16 : ℤ) else (x % 2^16 : ℤ) - 2^16

/-- Signed wheel rotation extracted from the mouseData u32: high-order word
reinterpreted as i16 (src/keyboard_knob.rs line 119). -/
def mouse_delta (mouseData : ℕ) : ℤ :=
  toI16 ((mouseData >>> 16) &&& 0xffff)

/-- mouse_hook from src/keyboard_knob.rs lines 107-125, as the event it posts:
none when the notification is not a vertical-wheel rotation at HC_ACTION. -/
def mouse_hook (code : ℤ) (w_param : ℕ) (mouseData : ℕ) : Option KnobAdjustmentEvent :=
  if code ≠ HC_ACTION ∨ w_param ≠ WM_MOUSEWHEEL then none
  else some (if 0 < mouse_delta mouseData then .Increment else .Decrement)

/-- Result of one run of register_knob_adjustment_handler (src/keyboard_knob.rs). -/
inductive HandlerOutcome
  | ok
  | stopHandlerError
  | txError
deriving DecidableEq

/-- Observable trace of register_knob_adjustment_handler after the hook has been
registered: how it returned, whether UnhookWindowsHookEx was called before
returning, and which events were forwarded into the channel. -/
structure HandlerRun where
  outcome : HandlerOutcome
  unhooked : Bool
  sent : List KnobAdjustmentEvent
deriving DecidableEq

/-- Message loop of register_knob_adjustment_handler, src/keyboard_knob.rs
lines 52-68: msgs is the list of message ids GetMessageW yields before it
returns false; send_ok is whether channel_tx.send succeeds (false once the
receivers are dropped). A failed send propagates through the `?` operator,
returning before the UnhookWindowsHookEx call on line 67. -/
def messageLoop (send_ok : Bool) : List ℕ → HandlerRun
  | [] => { outcome := .ok, unhooked := true, sent := [] }
  | m :: rest =>
    if m = KnobAdjustmentEvent.Increment.code then
      if send_ok then
        let r := messageLoop send_ok rest
        { r with sent := .Increment :: r.sent }
      else { outcome := .txError, unhooked := false, sent := [] }
    else if m = KnobAdjustmentEvent.Decrement.code then
      if send_ok then
        let r := messageLoop send_ok rest
        { r with sent := .Decrement :: r.sent }
      else { outcome := .txError, unhooked := false, sent := [] }
    else messageLoop send_ok rest

/-- register_knob_adjustment_handler, src/keyboard_knob.rs lines 28-70, from the
point where SetWindowsHookExW has succeeded: ctrlc_ok is whether
ctrlc::set_handler succeeds (on failure the hook is unhooked on line 47 and
StopHandlerError returned), then the message loop runs. -/
def register_knob_adjustment_handler (ctrlc_ok : Bool) (send_ok : Bool)
    (msgs : List ℕ) : HandlerRun :=
  if ¬ ctrlc_ok then { outcome := .stopHandlerError, unhooked := true, sent := [] }
  else messageLoop send_ok msgs

/-- refresh_rate_hz computed by Monitor::new_primary, src/monitor.rs lines 23-26:
vertical_frequency / 100 when get_timing_report succeeds (the report field is the
u16 vertical frequency), 60 on failure. -/
def new_primary_refresh_rate_hz (timing_report : Option ℕ) : ℕ :=
  match timing_report with
  | some report_vertical_frequency => report_vertical_frequency / 100
  | none => 60

lemma easeInOutCubic_one : easeInOutCubic 1 = 1 := by
  norm_num [easeInOutCubic]

lemma easeInOutCubic_mono {a b : ℚ} (ha : 0 ≤ a) (hab : a ≤ b) (hb : b ≤ 1) :
    easeInOutCubic a ≤ easeInOutCubic b := by
  unfold easeInOutCubic
  split <;> split <;> rename_i h1 h2
  · have := pow_le_pow_left₀ ha hab 3
    linarith
  · have h3 : a ^ 3 ≤ (1/2 : ℚ) ^ 3 := pow_le_pow_left₀ ha (le_of_lt h1) 3
    have h4 : (2 - 2*b) ^ 3 ≤ 1 ^ 3 := pow_le_pow_left₀ (by linarith) (by linarith) 3
    norm_num at h3 h4
    linarith
  · linarith
  · have h4 : (2 - 2*b) ^ 3 ≤ (2 - 2*a) ^ 3 := pow_le_pow_left₀ (by linarith) (by linarith) 3
    linarith

lemma easeInOutCubic_le_one {t : ℚ} (h0 : 0 ≤ t) (h1 : t ≤ 1) : easeInOutCubic t ≤ 1 := by
  have := easeInOutCubic_mono h0 h1 le_rfl
  rwa [easeInOutCubic_one] at this

lemma ease_eq {p q t : ℚ} (h0 : 0 ≤ t) (h1 : t ≤ 1) :
    ease p q t = p + (q - p) * easeInOutCubic t := by
  unfold ease
  rw [if_neg (by linarith), if_neg (by linarith)]

lemma frame_t_bounds {i n : ℕ} (hi : 1 ≤ i) (hin : i ≤ n) :
    (0 : ℚ) ≤ (i : ℚ) / (n : ℚ) ∧ (i : ℚ) / (n : ℚ) ≤ 1 := by
  have hn : (0 : ℚ) < (n : ℚ) := by
    have : 0 < n := lt_of_lt_of_le hi hin
    exact_mod_cast this
  constructor
  · positivity
  · rw [div_le_one hn]
    exact_mod_cast hin


lemma frame_value_mono {p t : ℤ} {i j n : ℕ} (hi : 1 ≤ i) (hij : i ≤ j) (hjn : j ≤ n) :
    (p < t → frame_value p t i n ≤ frame_value p t j n) ∧
    (t < p → frame_value p t j n ≤ frame_value p t i n) := by
  have hj : 1 ≤ j := le_trans hi hij
  have hin : i ≤ n := le_trans hij hjn
  obtain ⟨hi0, hi1⟩ := frame_t_bounds hi hin
  obtain ⟨hj0, hj1⟩ := frame_t_bounds hj hjn
  have hn : (0 : ℚ) < (n : ℚ) := by
    have : 0 < n := lt_of_lt_of_le hi hin
    exact_mod_cast this
  have htij : (i : ℚ) / (n : ℚ) ≤ (j : ℚ) / (n : ℚ) := by
    gcongr
  have hee : easeInOutCubic ((i : ℚ) / (n : ℚ)) ≤ easeInOutCubic ((j : ℚ) / (n : ℚ)) :=
    easeInOutCubic_mono hi0 htij hj1
  constructor
  · intro hpt
    have hpt' : (p : ℚ) < (t : ℚ) := by exact_mod_cast hpt
    unfold frame_value
    rw [if_pos hpt', if_pos hpt', ease_eq hi0 hi1, ease_eq hj0 hj1]
    apply Int.ceil_mono
    have : ((t : ℚ) - p) * easeInOutCubic ((i : ℚ) / n) ≤
        ((t : ℚ) - p) * easeInOutCubic ((j : ℚ) / n) :=
      mul_le_mul_of_nonneg_left hee (by linarith)
    linarith
  · intro htp
    have htp' : (t : ℚ) < (p : ℚ) := by exact_mod_cast htp
    unfold frame_value
    rw [if_neg (by linarith), if_neg (by linarith), ease_eq hi0 hi1, ease_eq hj0 hj1]
    apply Int.floor_mono
    have : ((t : ℚ) - p) * easeInOutCubic ((j : ℚ) / n) ≤
        ((t : ℚ) - p) * easeInOutCubic ((i : ℚ) / n) :=
      mul_le_mul_of_nonpos_left hee (by linarith)
    linarith

lemma frame_value_no_overshoot {p t : ℤ} {i n : ℕ} (hi : 1 ≤ i) (hin : i ≤ n) :
    (p < t → frame_value p t i n ≤ t) ∧ (t < p → t ≤ frame_value p t i n) := by
  obtain ⟨hi0, hi1⟩ := frame_t_bounds hi hin
  have he1 : easeInOutCubic ((i : ℚ) / (n : ℚ)) ≤ 1 := easeInOutCubic_le_one hi0 hi1
  constructor
  · intro hpt
    have hpt' : (p : ℚ) < (t : ℚ) := by exact_mod_cast hpt
    unfold frame_value
    rw [if_pos hpt', ease_eq hi0 hi1]
    rw [Int.ceil_le]
    have : ((t : ℚ) - p) * easeInOutCubic ((i : ℚ) / n) ≤ ((t : ℚ) - p) * 1 :=
      mul_le_mul_of_nonneg_left he1 (by linarith)
    linarith
  · intro htp
    have htp' : (t : ℚ) < (p : ℚ) := by exact_mod_cast htp
    unfold frame_value
    rw [if_neg (by linarith), ease_eq hi0 hi1]
    rw [Int.le_floor]
    have : ((t : ℚ) - p) * 1 ≤ ((t : ℚ) - p) * easeInOutCubic ((i : ℚ) / n) :=
      mul_le_mul_of_nonpos_left he1 (by linarith)
    linarith



lemma frame_value_eq (p t : ℤ) (i n : ℕ) :
    frame_value p t i n =
      if (p : ℚ) < (t : ℚ) then ⌈ease (p : ℚ) (t : ℚ) ((i : ℚ) / (n : ℚ))⌉
      else ⌊ease (p : ℚ) (t : ℚ) ((i : ℚ) / (n : ℚ))⌋ := rfl

lemma frame_value_last {p t : ℤ} {n : ℕ} (hn : 1 ≤ n) : frame_value p t n n = t := by
  have hn' : ((n : ℚ)) ≠ 0 := by
    have : 0 < n := hn
    exact_mod_cast this.ne.symm
  rw [frame_value_eq, div_self hn', ease_eq (by norm_num) le_rfl, easeInOutCubic_one]
  have hX : (p : ℚ) + ((t : ℚ) - p) * 1 = (t : ℚ) := by ring
  rw [hX]
  split
  · exact Int.ceil_intCast t
  · exact Int.floor_intCast t

lemma adjustGo_result_cases (pv tv : ℤ) (n : ℕ) (pending : ℕ → Bool) :
    ∀ (fuel frame : ℕ) (pb : ℤ),
      (adjustGo pv tv n pending frame pb fuel).result = .ok pv ∨
      (adjustGo pv tv n pending frame pb fuel).result = .ok tv := by
  intro fuel
  induction fuel with
  | zero => intro frame pb; right; rfl
  | succ k ih =>
    intro frame pb
    unfold adjustGo
    by_cases h : pending frame
    · rw [if_pos h]; left; rfl
    · rw [if_neg h]
      exact ih (frame + 1) (frame_value pv tv frame n)

lemma adjustGo_interrupted (pv tv : ℤ) (n : ℕ) (pending : ℕ → Bool) :
    ∀ (fuel frame : ℕ) (pb : ℤ),
      (∃ i, frame ≤ i ∧ i < frame + fuel ∧ pending i = true) →
      (adjustGo pv tv n pending frame pb fuel).result = .ok pv := by
  intro fuel
  induction fuel with
  | zero =>
    intro frame pb ⟨i, h1, h2, _⟩
    omega
  | succ k ih =>
    intro frame pb ⟨i, h1, h2, h3⟩
    unfold adjustGo
    by_cases h : pending frame
    · rw [if_pos h]
    · rw [if_neg h]
      apply ih
      refine ⟨i, ?_, by omega, h3⟩
      rcases Nat.eq_or_lt_of_le h1 with rfl | hlt
      · rw [h3] at h; exact absurd rfl h
      · omega

lemma adjustGo_completed (pv tv : ℤ) (n : ℕ) (pending : ℕ → Bool) :
    ∀ (fuel frame : ℕ) (pb : ℤ),
      (∀ i, frame ≤ i → i < frame + fuel → pending i = false) →
      (adjustGo pv tv n pending frame pb fuel).result = .ok tv := by
  intro fuel
  induction fuel with
  | zero => intro frame pb _; rfl
  | succ k ih =>
    intro frame pb h
    unfold adjustGo
    rw [if_neg (by simp [h frame le_rfl (by omega)])]
    exact ih (frame + 1) _ (fun i h1 h2 => h i (by omega) (by omega))

lemma adjustGo_writes_chain (pv tv : ℤ) (n : ℕ) (pending : ℕ → Bool) :
    ∀ (fuel frame : ℕ) (pb : ℤ),
      List.Chain' (fun a b => a ≠ b) (pb :: (adjustGo pv tv n pending frame pb fuel).writes) := by
  intro fuel
  induction fuel with
  | zero => intro frame pb; simp [adjustGo]
  | succ k ih =>
    intro frame pb
    unfold adjustGo
    by_cases h : pending frame
    · rw [if_pos h]
      by_cases hw : frame_value pv tv frame n ≠ pb
      · simp only [if_pos hw]
        exact List.chain'_cons.mpr ⟨fun he => hw he.symm, List.chain'_singleton _⟩
      · simp only [if_neg hw]
        exact List.chain'_singleton _
    · rw [if_neg h]
      by_cases hw : frame_value pv tv frame n ≠ pb
      · simp only [if_pos hw]
        exact List.chain'_cons.mpr ⟨fun he => hw he.symm, ih (frame + 1) _⟩
      · simp only [if_neg hw, List.nil_append]
        push_neg at hw
        rw [hw]
        exact ih (frame + 1) pb

lemma adjust_brightness_result_cases (rr : ℕ) (pending : ℕ → Bool) (pv tv : ℤ) (d : ℕ) :
    (adjust_brightness rr pending pv tv d).result = .ok pv ∨
    (adjust_brightness rr pending pv tv d).result = .ok tv :=
  adjustGo_result_cases pv tv _ pending _ 1 (-1)

lemma next_target_bounds (e : KnobAdjustmentEvent) (nb : ℤ)
    (h1 : 0 ≤ nb) (h2 : nb ≤ 100) :
    0 ≤ next_target e nb ∧ next_target e nb ≤ 100 := by
  cases e <;> simp [next_target, MIN_BRIGHTNESS, MAX_BRIGHTNESS] <;> omega

lemma engineStep_preserves (rr d : ℕ) (p : ℕ → Bool) (s : EngineState)
    (e : KnobAdjustmentEvent)
    (h1 : 0 ≤ s.curr_brightness) (h2 : s.curr_brightness ≤ 100)
    (h3 : 0 ≤ s.next_brightness) (h4 : s.next_brightness ≤ 100) :
    0 ≤ (engineStep rr d p s e).curr_brightness ∧
    (engineStep rr d p s e).curr_brightness ≤ 100 ∧
    0 ≤ (engineStep rr d p s e).next_brightness ∧
    (engineStep rr d p s e).next_brightness ≤ 100 := by
  obtain ⟨hn1, hn2⟩ := next_target_bounds e s.next_brightness h3 h4
  unfold engineStep
  by_cases h : next_target e s.next_brightness ≠ s.curr_brightness
  · rw [if_pos h]
    rcases adjust_brightness_result_cases rr p s.curr_brightness
        (next_target e s.next_brightness) d with hr | hr <;>
      simp only [hr] <;> exact ⟨by assumption, by assumption, hn1, hn2⟩
  · rw [if_neg h]
    exact ⟨h1, h2, hn1, hn2⟩

lemma engineRun_preserves (rr d : ℕ) (b : ℤ)
    (evs : List (KnobAdjustmentEvent × (ℕ → Bool)))
    (h1 : 0 ≤ b) (h2 : b ≤ 100) :
    0 ≤ (engineRun rr d b evs).curr_brightness ∧
    (engineRun rr d b evs).curr_brightness ≤ 100 ∧
    0 ≤ (engineRun rr d b evs).next_brightness ∧
    (engineRun rr d b evs).next_brightness ≤ 100 := by
  suffices h : ∀ (s : EngineState), 0 ≤ s.curr_brightness → s.curr_brightness ≤ 100 →
      0 ≤ s.next_brightness → s.next_brightness ≤ 100 →
      0 ≤ (evs.foldl (fun s pr => engineStep rr d pr.2 s pr.1) s).curr_brightness ∧
      (evs.foldl (fun s pr => engineStep rr d pr.2 s pr.1) s).curr_brightness ≤ 100 ∧
      0 ≤ (evs.foldl (fun s pr => engineStep rr d pr.2 s pr.1) s).next_brightness ∧
      (evs.foldl (fun s pr => engineStep rr d pr.2 s pr.1) s).next_brightness ≤ 100 by
    exact h (engineInit b) h1 h2 h1 h2
  induction evs with
  | nil => intro s a1 a2 a3 a4; exact ⟨a1, a2, a3, a4⟩
  | cons pr rest ih =>
    intro s a1 a2 a3 a4
    obtain ⟨b1, b2, b3, b4⟩ := engineStep_preserves rr d pr.2 s pr.1 a1 a2 a3 a4
    exact ih _ b1 b2 b3 b4

lemma engineStep_skip (rr d : ℕ) (p : ℕ → Bool) (s : EngineState)
    (e : KnobAdjustmentEvent) (h : next_target e s.next_brightness = s.curr_brightness) :
    engineStep rr d p s e = { s with next_brightness := next_target e s.next_brightness } := by
  unfold engineStep
  rw [if_neg (by simpa using h)]

lemma engineStep_noop (rr d : ℕ) (p : ℕ → Bool) (s : EngineState)
    (e : KnobAdjustmentEvent) (h : next_target e s.next_brightness = s.next_brightness)
    (h2 : s.curr_brightness = s.next_brightness) :
    engineStep rr d p s e = s := by
  rw [engineStep_skip rr d p s e (by rw [h, h2]), h]

lemma engineStep_synced (rr d : ℕ) (s : EngineState) (e : KnobAdjustmentEvent) :
    (engineStep rr d (fun _ => false) s e).curr_brightness =
      (engineStep rr d (fun _ => false) s e).next_brightness := by
  unfold engineStep
  by_cases hc : next_target e s.next_brightness ≠ s.curr_brightness
  · rw [if_pos hc]
    have hr : (adjust_brightness rr (fun _ => false) s.curr_brightness
        (next_target e s.next_brightness) d).result = .ok (next_target e s.next_brightness) := by
      apply adjustGo_completed
      intro i _ _
      rfl
    simp only [hr]
  · rw [if_neg hc]
    push_neg at hc
    simpa using hc.symm


lemma engineRun_synced_aux (rr d : ℕ) :
    ∀ (evs : List (KnobAdjustmentEvent × (ℕ → Bool))) (s : EngineState),
      (∀ pr ∈ evs, pr.2 = fun _ => false) →
      s.curr_brightness = s.next_brightness →
      (evs.foldl (fun s pr => engineStep rr d pr.2 s pr.1) s).curr_brightness =
      (evs.foldl (fun s pr => engineStep rr d pr.2 s pr.1) s).next_brightness := by
  intro evs
  induction evs with
  | nil => intro s _ hs; exact hs
  | cons pr rest ih =>
    intro s hp _
    simp only [List.foldl_cons]
    apply ih _ (fun q hq => hp q (List.mem_cons_of_mem pr hq))
    have hpr := hp pr (List.mem_cons_self pr rest)
    rw [hpr]
    exact engineStep_synced rr d s pr.1

lemma engineRun_synced (rr d : ℕ) (b : ℤ)
    (evs : List (KnobAdjustmentEvent × (ℕ → Bool)))
    (hp : ∀ pr ∈ evs, pr.2 = fun _ => false) :
    (engineRun rr d b evs).curr_brightness = (engineRun rr d b evs).next_brightness :=
  engineRun_synced_aux rr d evs (engineInit b) hp rfl

lemma ceil_div_1000 (a : ℕ) : (⌈((a : ℚ)) / 1000⌉).toNat = (a + 999) / 1000 := by
  have h : ((a : ℚ)) / 1000 = -(((-(a : ℤ) : ℤ) : ℚ) / ((1000 : ℕ) : ℚ)) := by
    push_cast; ring
  rw [h, Int.ceil_neg, Rat.floor_intCast_div_natCast]
  omega

lemma n_frames_eq (d r : ℕ) : n_frames d r = max ((d * r + 999) / 1000) 1 := by
  unfold n_frames
  rw [ceil_div_1000]

/-- C1 (counterexample): in a 30→80 transition with 13 frames, interrupted during
frame 6's busy-wait after 50 has just been applied (the last write), the code
returns Ok(30) — the original prev_value — not 50 as the claim states. -/
theorem C1_counterexample :
    (adjust_brightness 13 (fun f => f == 6) 30 80 1000).result = .ok 30 ∧
    (adjust_brightness 13 (fun f => f == 6) 30 80 1000).writes = [31, 33, 36, 42, 50] ∧
    (30 : ℤ) ≠ 50 := by
  have e13 : n_frames 1000 13 = 13 := by rw [n_frames_eq]; rfl
  have h1 : frame_value 30 80 1 13 = 31 := by
    norm_num [frame_value, ease, easeInOutCubic, Int.ceil_eq_iff]
  have h2 : frame_value 30 80 2 13 = 31 := by
    norm_num [frame_value, ease, easeInOutCubic, Int.ceil_eq_iff]
  have h3 : frame_value 30 80 3 13 = 33 := by
    norm_num [frame_value, ease, easeInOutCubic, Int.ceil_eq_iff]
  have h4 : frame_value 30 80 4 13 = 36 := by
    norm_num [frame_value, ease, easeInOutCubic, Int.ceil_eq_iff]
  have h5 : frame_value 30 80 5 13 = 42 := by
    norm_num [frame_value, ease, easeInOutCubic, Int.ceil_eq_iff]
  have h6 : frame_value 30 80 6 13 = 50 := by
    norm_num [frame_value, ease, easeInOutCubic, Int.ceil_eq_iff]
  unfold adjust_brightness
  rw [e13]
  refine ⟨?_, ?_, by norm_num⟩ <;>
    simp [adjustGo, h1, h2, h3, h4, h5, h6]

/-- C1 (amended): when a pending event is detected during any frame's busy-wait,
adjust_brightness returns Ok(prev_value) — the baseline the transition started
from — regardless of which values were applied meanwhile. -/
theorem C1_interruption_returns_prev (rr d : ℕ) (pending : ℕ → Bool) (pv tv : ℤ)
    (h : ∃ i, 1 ≤ i ∧ i ≤ n_frames d rr ∧ pending i = true) :
    (adjust_brightness rr pending pv tv d).result = .ok pv := by
  apply adjustGo_interrupted
  obtain ⟨i, h1, h2, h3⟩ := h
  exact ⟨i, h1, by omega, h3⟩

/-- Witness for C1 (amended) at the counterexample's inputs: frame 6 of 13 is
interrupted and the returned value is the original baseline 30. -/
theorem C1_interruption_returns_prev_witness :
    (∃ i, 1 ≤ i ∧ i ≤ n_frames 1000 13 ∧ (fun f => f == 6) i = true) ∧
    (adjust_brightness 13 (fun f => f == 6) 30 80 1000).result = .ok 30 := by
  have e13 : n_frames 1000 13 = 13 := by rw [n_frames_eq]; rfl
  have h : ∃ i, 1 ≤ i ∧ i ≤ n_frames 1000 13 ∧ (fun f => f == 6) i = true :=
    ⟨6, by norm_num, by rw [e13]; norm_num, rfl⟩
  exact ⟨h, C1_interruption_returns_prev 13 1000 (fun f => f == 6) 30 80 h⟩

/-- C4: the frame count is max(ceil(duration_ms * refresh_rate_hz / 1000), 1),
equivalently max((duration_ms * refresh_rate_hz + 999) / 1000, 1) in integer
arithmetic; 1000 ms at 165 Hz gives 165 frames and 0 ms gives exactly 1 frame. -/
theorem C4_frame_count :
    (∀ d r : ℕ, n_frames d r = max ((d * r + 999) / 1000) 1) ∧
    n_frames 1000 165 = 165 ∧
    (∀ r : ℕ, n_frames 0 r = 1) := by
  refine ⟨n_frames_eq, by rw [n_frames_eq]; rfl, fun r => ?_⟩
  rw [n_frames_eq]
  omega

/-- C6: within a single transition no two consecutive set_brightness calls carry
the same value (a frame whose rounded value repeats the previous frame's is
skipped); concretely, in a 0→1 transition of 2 frames both frames compute 1 and
set_brightness is called exactly once. -/
theorem C6_no_redundant_writes :
    (∀ (rr : ℕ) (pending : ℕ → Bool) (pv tv : ℤ) (d : ℕ),
      List.Chain' (fun a b => a ≠ b) (adjust_brightness rr pending pv tv d).writes) ∧
    frame_value 0 1 1 2 = 1 ∧ frame_value 0 1 2 2 = 1 ∧
    (adjust_brightness 2 (fun _ => false) 0 1 1000).writes = [1] := by
  have hv1 : frame_value 0 1 1 2 = 1 := by
    norm_num [frame_value, ease, easeInOutCubic, Int.ceil_eq_iff]
  have hv2 : frame_value 0 1 2 2 = 1 := by
    norm_num [frame_value, ease, easeInOutCubic, Int.ceil_eq_iff]
  refine ⟨fun rr pending pv tv d => ?_, hv1, hv2, ?_⟩
  · exact (adjustGo_writes_chain pv tv _ pending _ 1 (-1)).tail
  · have e2 : n_frames 1000 2 = 2 := by rw [n_frames_eq]; rfl
    unfold adjust_brightness
    rw [e2]
    simp [adjustGo, hv1, hv2]

/-- C7: the engine seeds both the applied and the target brightness from
get_brightness(), and with a seed of 42 the first Increment starts a transition
from 42 to 43. -/
theorem C7_seeding :
    (∀ b : ℤ, (engineInit b).curr_brightness = b ∧ (engineInit b).next_brightness = b) ∧
    (∀ (rr d : ℕ) (p : ℕ → Bool),
      (engineStep rr d p (engineInit 42) .Increment).transitions = [(42, 43)] ∧
      (engineStep rr d p (engineInit 42) .Increment).next_brightness = 43) := by
  refine ⟨fun b => ⟨rfl, rfl⟩, fun rr d p => ?_⟩
  have hnt : next_target .Increment (42 : ℤ) = 43 := by
    simp [next_target, MAX_BRIGHTNESS]
  unfold engineStep
  simp [engineInit, hnt]

/-- C10: adjust_brightness always returns Ok — either the target value or the
prev_value — for every input, so the caller's Err branch is unreachable. -/
theorem C10_never_err (rr : ℕ) (pending : ℕ → Bool) (pv tv : ℤ) (d : ℕ) :
    ∃ v, (adjust_brightness rr pending pv tv d).result = .ok v ∧ (v = tv ∨ v = pv) := by
  rcases adjust_brightness_result_cases rr pending pv tv d with h | h
  · exact ⟨pv, h, Or.inr rfl⟩
  · exact ⟨tv, h, Or.inl rfl⟩

/-- C2: given a starting brightness in [0, 100], the maintained target stays in
[0, 100] over every event sequence; when the target is already at MAX_BRIGHTNESS
an Increment leaves it unchanged, and if moreover the currently-applied value
equals it the whole step is a no-op (no transition, no writes); dually for
Decrement at MIN_BRIGHTNESS. -/
theorem C2_target_invariant :
    (∀ (rr d : ℕ) (b : ℤ) (evs : List (KnobAdjustmentEvent × (ℕ → Bool))),
      0 ≤ b → b ≤ 100 →
      0 ≤ (engineRun rr d b evs).next_brightness ∧
      (engineRun rr d b evs).next_brightness ≤ 100) ∧
    (∀ (rr d : ℕ) (p : ℕ → Bool) (s : EngineState), s.next_brightness = 100 →
      next_target .Increment s.next_brightness = s.next_brightness ∧
      (s.curr_brightness = s.next_brightness → engineStep rr d p s .Increment = s)) ∧
    (∀ (rr d : ℕ) (p : ℕ → Bool) (s : EngineState), s.next_brightness = 0 →
      next_target .Decrement s.next_brightness = s.next_brightness ∧
      (s.curr_brightness = s.next_brightness → engineStep rr d p s .Decrement = s)) := by
  refine ⟨fun rr d b evs h1 h2 => ?_, fun rr d p s h => ?_, fun rr d p s h => ?_⟩
  · obtain ⟨_, _, h3, h4⟩ := engineRun_preserves rr d b evs h1 h2
    exact ⟨h3, h4⟩
  · have hnt : next_target .Increment s.next_brightness = s.next_brightness := by
      rw [h]; simp [next_target, MAX_BRIGHTNESS]
    exact ⟨hnt, fun hc => engineStep_noop rr d p s _ hnt hc⟩
  · have hnt : next_target .Decrement s.next_brightness = s.next_brightness := by
      rw [h]; simp [next_target, MIN_BRIGHTNESS]
    exact ⟨hnt, fun hc => engineStep_noop rr d p s _ hnt hc⟩

/-- Witness for C2 at concrete inputs: a run seeded at 42, an Increment at a
state already at 100, and a Decrement at a state already at 0. -/
theorem C2_target_invariant_witness :
    (0 ≤ (engineRun 60 0 42 [(.Increment, fun _ => false)]).next_brightness ∧
      (engineRun 60 0 42 [(.Increment, fun _ => false)]).next_brightness ≤ 100) ∧
    engineStep 60 0 (fun _ => false) (engineInit 100) .Increment = engineInit 100 ∧
    engineStep 60 0 (fun _ => false) (engineInit 0) .Decrement = engineInit 0 :=
  ⟨C2_target_invariant.1 60 0 42 [(.Increment, fun _ => false)] (by norm_num) (by norm_num),
   (C2_target_invariant.2.1 60 0 (fun _ => false) (engineInit 100) rfl).2 rfl,
   (C2_target_invariant.2.2 60 0 (fun _ => false) (engineInit 0) rfl).2 rfl⟩

/-- C3: for frames 1 ≤ i ≤ j ≤ n the rounded frame values are monotone in the
direction of travel, never pass beyond the target, and the final frame equals
the target exactly (frame_value is the eased value rounded by ceiling when
increasing and floor when decreasing, per the definition). -/
theorem C3_frame_rounding (p t : ℤ) (n i j : ℕ)
    (hn : 1 ≤ n) (hi : 1 ≤ i) (hij : i ≤ j) (hjn : j ≤ n) :
    (p < t →
      frame_value p t i n ≤ frame_value p t j n ∧ frame_value p t j n ≤ t) ∧
    (t < p →
      frame_value p t j n ≤ frame_value p t i n ∧ t ≤ frame_value p t j n) ∧
    frame_value p t n n = t := by
  refine ⟨fun h => ⟨(frame_value_mono hi hij hjn).1 h,
      (frame_value_no_overshoot (le_trans hi hij) hjn).1 h⟩,
    fun h => ⟨(frame_value_mono hi hij hjn).2 h,
      (frame_value_no_overshoot (le_trans hi hij) hjn).2 h⟩,
    frame_value_last hn⟩

/-- Witness for C3 at a concrete transition: 30→80 over 13 frames, frames 2 and 5. -/
theorem C3_frame_rounding_witness :
    ((30 : ℤ) < 80 →
      frame_value 30 80 2 13 ≤ frame_value 30 80 5 13 ∧ frame_value 30 80 5 13 ≤ 80) ∧
    ((80 : ℤ) < 30 →
      frame_value 30 80 5 13 ≤ frame_value 30 80 2 13 ∧ 80 ≤ frame_value 30 80 5 13) ∧
    frame_value 30 80 13 13 = 80 :=
  C3_frame_rounding 30 80 13 2 5 (by norm_num) (by norm_num) (by norm_num) (by norm_num)

/-- C9 (counterexample): a successful timing report with vertical_frequency 0
yields refresh_rate_hz = 0, which is not positive; and the stored rate is the
report value divided by 100 (16500 ↦ 165), not the raw report value. -/
theorem C9_counterexample :
    new_primary_refresh_rate_hz (some 0) = 0 ∧
    ¬ 0 < new_primary_refresh_rate_hz (some 0) ∧
    new_primary_refresh_rate_hz (some 16500) = 165 := by decide

/-- C9 (amended): refresh_rate_hz is vertical_frequency / 100 when the timing
report succeeds and 60 when it fails; it is positive on failure and whenever the
reported vertical frequency is at least 100 (1 Hz in the report's 0.01 Hz units),
but 0 for a report below 100. -/
theorem C9_refresh_rate :
    new_primary_refresh_rate_hz none = 60 ∧
    0 < new_primary_refresh_rate_hz none ∧
    (∀ vf : ℕ, new_primary_refresh_rate_hz (some vf) = vf / 100) ∧
    (∀ vf : ℕ, 100 ≤ vf → 0 < new_primary_refresh_rate_hz (some vf)) := by
  refine ⟨rfl, by decide, fun vf => rfl, fun vf h => ?_⟩
  simp only [new_primary_refresh_rate_hz]
  omega

/-- Witness for C9 (amended) at a concrete report of 165 Hz. -/
theorem C9_refresh_rate_witness :
    (100 : ℕ) ≤ 16500 ∧ 0 < new_primary_refresh_rate_hz (some 16500) :=
  ⟨by norm_num, C9_refresh_rate.2.2.2 16500 (by norm_num)⟩

lemma messageLoop_unhooked (send_ok : Bool) :
    ∀ msgs : List ℕ,
      ((messageLoop send_ok msgs).outcome = .txError ∧
        (messageLoop send_ok msgs).unhooked = false) ∨
      ((messageLoop send_ok msgs).outcome ≠ .txError ∧
        (messageLoop send_ok msgs).unhooked = true) := by
  intro msgs
  induction msgs with
  | nil => right; exact ⟨fun h => by simp [messageLoop] at h, rfl⟩
  | cons m rest ih =>
    unfold messageLoop
    by_cases h1 : m = KnobAdjustmentEvent.Increment.code
    · rw [if_pos h1]
      cases send_ok
      · left; exact ⟨rfl, rfl⟩
      · simpa using ih
    · rw [if_neg h1]
      by_cases h2 : m = KnobAdjustmentEvent.Decrement.code
      · rw [if_pos h2]
        cases send_ok
        · left; exact ⟨rfl, rfl⟩
        · simpa using ih
      · rw [if_neg h2]
        exact ih

/-- C5 (counterexample): with the hook and interrupt handler registered, a
forward of an Increment message into a closed channel makes the function
return the TXError early path with the hook still registered (unhooked =
false), contradicting the claim that UnhookWindowsHookEx runs on that path. -/
theorem C5_counterexample :
    (register_knob_adjustment_handler true false [0x0500]).outcome = .txError ∧
    (register_knob_adjustment_handler true false [0x0500]).unhooked = false := by decide

/-- C5 (amended): after the hook is registered, UnhookWindowsHookEx is called
on normal message-loop termination and on interrupt-handler registration
failure, but the early-return path taken when a send into a closed EventQueue
fails returns without unregistering the hook. -/
theorem C5_unhook_paths (ctrlc_ok send_ok : Bool) (msgs : List ℕ) :
    ((register_knob_adjustment_handler ctrlc_ok send_ok msgs).outcome ≠ .txError →
      (register_knob_adjustment_handler ctrlc_ok send_ok msgs).unhooked = true) ∧
    ((register_knob_adjustment_handler ctrlc_ok send_ok msgs).outcome = .txError →
      (register_knob_adjustment_handler ctrlc_ok send_ok msgs).unhooked = false) := by
  unfold register_knob_adjustment_handler
  split_ifs with hc
  · rcases messageLoop_unhooked send_ok msgs with ⟨h1, h2⟩ | ⟨h1, h2⟩
    · exact ⟨fun h => absurd h1 h, fun _ => h2⟩
    · exact ⟨fun _ => h2, fun h => absurd h h1⟩
  · exact ⟨fun _ => rfl, fun h2 => absurd h2 (by decide)⟩

/-- Witness for C5 (amended): normal termination unhooks; a failed send does not. -/
theorem C5_unhook_paths_witness :
    (register_knob_adjustment_handler true true [0x0500]).unhooked = true ∧
    (register_knob_adjustment_handler true false [0x0502]).unhooked = false :=
  ⟨(C5_unhook_paths true true [0x0500]).1 (by decide),
   (C5_unhook_paths true false [0x0502]).2 (by decide)⟩

/-- C8: the keyboard hook posts an event exactly for key-up transitions
(WM_KEYUP or WM_SYSKEYUP) of F19 (Decrement) and F20 (Increment) at HC_ACTION,
and nothing otherwise; the mouse hook reacts exactly to WM_MOUSEWHEEL at
HC_ACTION, posting Increment for a positive signed wheel delta and Decrement
for a zero or negative one. -/
theorem C8_hook_mapping :
    (∀ (code : ℤ) (w_param vkCode : ℕ),
      (keyboard_hook code w_param vkCode = some .Decrement ↔
        code = HC_ACTION ∧ (w_param = WM_KEYUP ∨ w_param = WM_SYSKEYUP) ∧
          vkCode % 2^16 = VK_F19) ∧
      (keyboard_hook code w_param vkCode = some .Increment ↔
        code = HC_ACTION ∧ (w_param = WM_KEYUP ∨ w_param = WM_SYSKEYUP) ∧
          vkCode % 2^16 = VK_F20)) ∧
    (∀ (code : ℤ) (w_param mouseData : ℕ),
      (mouse_hook code w_param mouseData = none ↔
        ¬(code = HC_ACTION ∧ w_param = WM_MOUSEWHEEL)) ∧
      (code = HC_ACTION → w_param = WM_MOUSEWHEEL → 0 < mouse_delta mouseData →
        mouse_hook code w_param mouseData = some .Increment) ∧
      (code = HC_ACTION → w_param = WM_MOUSEWHEEL → mouse_delta mouseData ≤ 0 →
        mouse_hook code w_param mouseData = some .Decrement)) := by
  constructor
  · intro code w_param vkCode
    unfold keyboard_hook
    split_ifs <;>
      simp_all [VK_F19, VK_F20] <;> omega
  · intro code w_param mouseData
    unfold mouse_hook
    refine ⟨?_, fun hc hw hd => ?_, fun hc hw hd => ?_⟩
    · split_ifs with h <;> simp_all [not_or]
      tauto
    · rw [if_neg (by simp [hc, hw]), if_pos hd]
    · rw [if_neg (by simp [hc, hw]), if_neg (by omega)]

/-- Witness for C8 at concrete notifications: F19 key-up maps to Decrement; a
wheel delta of +120 maps to Increment and -120 (bit pattern 0xFF88) to
Decrement. -/
theorem C8_hook_mapping_witness :
    keyboard_hook 0 WM_KEYUP 0x82 = some .Decrement ∧
    mouse_hook 0 WM_MOUSEWHEEL 7864320 = some .Increment ∧
    mouse_hook 0 WM_MOUSEWHEEL 4287102976 = some .Decrement :=
  ⟨(C8_hook_mapping.1 0 WM_KEYUP 0x82).1.mpr ⟨rfl, Or.inl rfl, by decide⟩,
   (C8_hook_mapping.2 0 WM_MOUSEWHEEL 7864320).2.1 rfl rfl (by decide),
   (C8_hook_mapping.2 0 WM_MOUSEWHEEL 4287102976).2.2 rfl rfl (by decide)⟩
